import Mathlib

/-!
Verification development for the SeisanUtil repository (Sfile parser,
event accumulator, travel-time / distance / magnitude utilities).

The Python source is shallowly embedded: Python scalar values become the
inductive `PyVal`, raised exceptions become the `PyErr` side of `Except`,
dictionaries become insertion-ordered association lists, and `datetime`
values become rational "seconds since 1900-01-01" (the epoch of a Python
time-of-day `datetime` parsed without a date).  Floating point trigonometric
and transcendental helpers (`math.sin`, `np.log10`, `np.sqrt`) are passed in
as function parameters where the surrounding control flow is what is being
verified.
-/

set_option linter.unusedVariables false

namespace SeisanUtil

/-- Python scalar values that flow through the Sfile parser and the Event
methods: `None`, strings, numbers (`int` and `float` collapsed into `ℚ`),
booleans, and `datetime.datetime` values (seconds since 1900-01-01). -/
inductive PyVal where
  | none
  | str (s : String)
  | num (q : ℚ)
  | bool (b : Bool)
  | dt (secs : ℚ)
  deriving Repr, DecidableEq

/-- Python exceptions raised by the embedded code. -/
inductive PyErr where
  | keyError (k : String)
  | indexError
  | typeError
  | valueError
  | attributeError
  | unboundLocal
  | stopIteration
  deriving Repr, DecidableEq

/-- Python truthiness of a scalar value (`if v:`). -/
def PyVal.truthy : PyVal → Bool
  | .none => false
  | .str s => s ≠ ""
  | .num q => q ≠ 0
  | .bool b => b
  | .dt _ => true

/-- A Python `dict` with string keys, modelled as an insertion-ordered
association list (Python 3.7+ dicts preserve insertion order). -/
abbrev PyDict := List (String × PyVal)

/-- Dictionary lookup, `d.get(k)` / `k in d`. -/
def dget? (d : PyDict) (k : String) : Option PyVal :=
  (List.find? (fun p => p.1 == k) d).map (fun p => p.2)

/-- Dictionary lookup `d[k]`, raising `KeyError` when the key is absent. -/
def dgetE (d : PyDict) (k : String) : Except PyErr PyVal :=
  match dget? d k with
  | Option.some v => Except.ok v
  | Option.none => Except.error (PyErr.keyError k)

/-- Dictionary update `d[k] = v`: overwrite in place if the key exists,
otherwise append at the end (Python insertion-order semantics). -/
def dset (d : PyDict) (k : String) (v : PyVal) : PyDict :=
  match d with
  | [] => [(k, v)]
  | (k', v') :: t => if k' == k then (k, v) :: t else (k', v') :: dset t k v

/-- Python slicing `s[i:j]` with non-negative bounds (clamped, never raises). -/
def pySlice (s : String) (i j : Nat) : String :=
  String.mk (((s.data.drop i).take (j - i)))

/-- Python single-character indexing `s[i]` with a non-negative index:
raises `IndexError` when the index is out of range. -/
def pyAt (s : String) (i : Nat) : Except PyErr String :=
  match s.data.drop i with
  | [] => Except.error PyErr.indexError
  | c :: _ => Except.ok (String.mk [c])

/-- Python suffix slicing `s[-n:]`: the last `n` characters, or the whole
string when it is shorter than `n`. -/
def pyTakeRight (s : String) (n : Nat) : String :=
  String.mk (s.data.drop (s.data.length - n))

/-- Python `str.strip()`: remove leading and trailing whitespace. -/
def pyStrip (s : String) : String :=
  String.mk (((s.data.dropWhile Char.isWhitespace).reverse.dropWhile
    Char.isWhitespace).reverse)

/-- Value of a non-empty list of decimal digit characters. -/
def digitsVal? (cs : List Char) : Option Nat :=
  if cs.isEmpty then Option.none
  else if cs.all Char.isDigit then
    Option.some (cs.foldl (fun a c => a * 10 + (c.toNat - 48)) 0)
  else Option.none

/-- Python `int(s)`: strip whitespace, optional sign, decimal digits only;
raises `ValueError` otherwise. -/
def pyIntQ (s : String) : Except PyErr ℚ :=
  let t := (pyStrip s).data
  let (sg, u) : ℤ × List Char :=
    match t with
    | '-' :: r => (-1, r)
    | '+' :: r => (1, r)
    | r => (1, r)
  match digitsVal? u with
  | Option.some n => Except.ok ((sg * n : ℤ) : ℚ)
  | Option.none => Except.error PyErr.valueError

/-- Python `float(s)` restricted to plain decimal literals: strip
whitespace, optional sign, digits with an optional fractional part
(`"1."`, `".5"` and `"1.5"` all accepted); raises `ValueError` otherwise.
Exponent, `inf` and `nan` spellings do not occur in Sfile columns and are
not modelled. -/
def pyFloatQ (s : String) : Except PyErr ℚ :=
  let t := (pyStrip s).data
  let (sg, u) : ℚ × List Char :=
    match t with
    | '-' :: r => (-1, r)
    | '+' :: r => (1, r)
    | r => (1, r)
  let ip := u.takeWhile Char.isDigit
  let rest := u.dropWhile Char.isDigit
  match rest with
  | [] =>
    match digitsVal? ip with
    | Option.some n => Except.ok (sg * n)
    | Option.none => Except.error PyErr.valueError
  | '.' :: fp =>
    if fp.all Char.isDigit ∧ (ip ≠ [] ∨ fp ≠ []) then
      let iv : ℚ := (ip.foldl (fun a c => a * 10 + (c.toNat - 48)) 0 : Nat)
      let fv : ℚ := (fp.foldl (fun a c => a * 10 + (c.toNat - 48)) 0 : Nat)
      Except.ok (sg * (iv + fv / ((10 : ℚ) ^ fp.length)))
    else Except.error PyErr.valueError
  | _ => Except.error PyErr.valueError

/-- Gregorian leap-year test. -/
def isLeap (y : ℤ) : Bool := (y % 4 == 0 && y % 100 != 0) || y % 400 == 0

/-- Days in a month of the proleptic Gregorian calendar. -/
def daysInMonth (y : ℤ) (m : Nat) : Nat :=
  if m = 2 then (if isLeap y then 29 else 28)
  else if m = 4 ∨ m = 6 ∨ m = 9 ∨ m = 11 then 30
  else 31

/-- Days from 1970-01-01 to the given civil date (standard days-from-civil
computation, valid for the proleptic Gregorian calendar). -/
def daysFromCivil (y : ℤ) (m d : Nat) : ℤ :=
  let y' : ℤ := if m ≤ 2 then y - 1 else y
  let era : ℤ := (if y' ≥ 0 then y' else y' - 399) / 400
  let yoe : ℤ := y' - era * 400
  let mp : ℤ := ((m : ℤ) + 9) % 12
  let doy : ℤ := (153 * mp + 2) / 5 + (d : ℤ) - 1
  let doe : ℤ := yoe * 365 + yoe / 4 - yoe / 100 + doy
  era * 146097 + doe - 719468

/-- Seconds from 1900-01-01 00:00:00 (the date a Python `datetime` gets when
parsed from a bare time-of-day) to the given civil timestamp. -/
def civilSecs (y : ℤ) (mo d : Nat) (h mi : Nat) (s : ℚ) : ℚ :=
  ((daysFromCivil y mo d - daysFromCivil 1900 1 1 : ℤ) : ℚ) * 86400
    + (h : ℚ) * 3600 + (mi : ℚ) * 60 + s

/-- Integer content of a `PyVal`, when it is an integral number. -/
def intOf? : PyVal → Option ℤ
  | .num q => if q.den = 1 then Option.some q.num else Option.none
  | _ => Option.none

/-- Model of the origin-time composition in `_parse_type_1`:
`datetime.strptime(f"{date} {time}", "%Y-%m-%d %H:%M:%S.%f")` where the
date and time strings are f-formatted from the six coerced sub-fields.
A blank (still-string) component makes the formatting or parse fail with
`ValueError`; out-of-range numeric components make `strptime` fail. -/
def mkOriginTime (y mo d h mi s : PyVal) : Except PyErr PyVal :=
  match intOf? y, intOf? mo, intOf? d, intOf? h, intOf? mi, s with
  | Option.some yv, Option.some mov, Option.some dv, Option.some hv,
      Option.some miv, .num sv =>
    if 1 ≤ yv ∧ 1 ≤ mov ∧ mov ≤ 12 ∧ 1 ≤ dv ∧
        dv ≤ (daysInMonth yv mov.toNat : ℤ) ∧
        0 ≤ hv ∧ hv ≤ 23 ∧ 0 ≤ miv ∧ miv ≤ 59 ∧ 0 ≤ sv ∧ sv < 62 then
      Except.ok (PyVal.dt (civilSecs yv mov.toNat dv.toNat hv.toNat miv.toNat sv))
    else Except.error PyErr.valueError
  | _, _, _, _, _, _ => Except.error PyErr.valueError

/-- Model of the arrival-time composition in the phase-line parsers:
`strptime(f"{date} {arr_h:02}:{arr_m:02}:{arr_s:02}", "%Y-%m-%d %H:%M:%S.%f")`
when an origin date is threaded in, else
`strptime(time, "%H:%M:%S.%f")` (which Python anchors at 1900-01-01, the
epoch of this embedding).  `date` is `origin_time.strftime("%Y-%m-%d")`,
i.e. midnight of the origin's civil day. -/
def mkArrTime (h mi s : PyVal) (origin : Option ℚ) : Except PyErr PyVal :=
  match intOf? h, intOf? mi, s with
  | Option.some hv, Option.some miv, .num sv =>
    if 0 ≤ hv ∧ hv ≤ 23 ∧ 0 ≤ miv ∧ miv ≤ 59 ∧ 0 ≤ sv ∧ sv < 62 then
      let base : ℚ :=
        match origin with
        | Option.some o => 86400 * ((⌊o / 86400⌋ : ℤ) : ℚ)
        | Option.none => 0
      Except.ok (PyVal.dt (base + (hv : ℚ) * 3600 + (miv : ℚ) * 60 + sv))
    else Except.error PyErr.valueError
  | _, _, _ => Except.error PyErr.valueError

/-- One entry of `Event.ttimes`: the Python list
`[arr['sta'], arr['phase'], arr['dist'], ttime]`. -/
structure TT where
  sta : PyVal
  phase : PyVal
  dist : PyVal
  time : ℚ
  deriving Repr, DecidableEq

/-- The `Event` instance from `SeisanUtil/event.py`.  Scalar attributes set
by `update_from_dict` live in the dynamic attribute map `attrs` (the
`__init__` defaults them all to `None`, so a missed lookup reads `None`);
the list-valued attributes, which no record dict ever names, are explicit
fields. -/
structure Event where
  attrs : PyDict := []
  phase_arrivals : List PyDict := []
  amplitudes : List PyDict := []
  ttimes : List TT := []
  sta_coords : List (String × PyVal × PyVal) := []
  sfile : PyVal := PyVal.none
  deriving Repr, DecidableEq

/-- Attribute read `self.k` for the scalar attributes: every scalar
attribute touched by the source is preset to `None` in `__init__`, so an
attribute never overwritten reads as `None`. -/
def Event.getattr (ev : Event) (k : String) : PyVal :=
  (dget? ev.attrs k).getD PyVal.none

/-- `Event.update_from_dict`: `for k, v in d.items(): setattr(self, k, v)`.
Record dicts only carry scalar fields, never the list-valued attributes. -/
def Event.update_from_dict (ev : Event) (d : PyDict) : Event :=
  { ev with attrs := d.foldl (fun a kv => dset a kv.1 kv.2) ev.attrs }

/-- `Event.add_arrivals_from_dict`: if key `"amp"` exists and is truthy the
dict is appended to `amplitudes`, otherwise to `phase_arrivals`. -/
def Event.add_arrivals_from_dict (ev : Event) (d : PyDict) : Event :=
  match dget? d "amp" with
  | Option.some v =>
    if v.truthy then { ev with amplitudes := ev.amplitudes ++ [d] }
    else { ev with phase_arrivals := ev.phase_arrivals ++ [d] }
  | Option.none => { ev with phase_arrivals := ev.phase_arrivals ++ [d] }

/-- Python `a - b` followed by `.total_seconds()`: defined for two
`datetime` values; a `None` (or otherwise non-datetime) operand raises
`TypeError`. -/
def pySubSeconds (a b : PyVal) : Except PyErr ℚ :=
  match a, b with
  | .dt x, .dt y => Except.ok (x - y)
  | _, _ => Except.error PyErr.typeError

/-- One iteration of the `calc_ttimes` loop: skip the arrival when its
`dist` value is falsy (`if not arr["dist"]: continue`), otherwise append
`[arr['sta'], arr['phase'], arr['dist'],
(arr['arrtime'] - self.origin_time).total_seconds()]`. -/
def ttStep (ev : Event) (acc : List TT) (arr : PyDict) :
    Except PyErr (List TT) := do
  let dist ← dgetE arr "dist"
  if dist.truthy then do
    let atv ← dgetE arr "arrtime"
    let t ← pySubSeconds atv (ev.getattr "origin_time")
    let sta ← dgetE arr "sta"
    let ph ← dgetE arr "phase"
    let dist2 ← dgetE arr "dist"
    Except.ok (acc ++ [TT.mk sta ph dist2 t])
  else Except.ok acc

/-- `Event.calc_ttimes`: walk `phase_arrivals` in order accumulating onto
`self.ttimes`, and return the accumulated list together with the mutated
event. -/
def Event.calc_ttimes (ev : Event) : Except PyErr (List TT × Event) := do
  let ts ← ev.phase_arrivals.foldlM (ttStep ev) ev.ttimes
  Except.ok (ts, { ev with ttimes := ts })

/-- The in-place strip pass `for k, v in arr.items(): arr[k] = v.strip()`
(all values are raw column substrings, hence strings, at this point). -/
def stripVals (d : PyDict) : PyDict :=
  d.map (fun kv =>
    (kv.1, match kv.2 with
           | PyVal.str s => PyVal.str (pyStrip s)
           | v => v))

/-- One key of the numeric-coercion pass
`if arr[key]: arr[key] = coe(arr[key])` shared by the record decoders.
`arr[key]` raises `KeyError` when the key is absent from the dict; a blank
field is left alone; a failed conversion raises `ValueError`.  (Values
reaching this pass are freshly stripped strings.) -/
def coerceStep (coe : String → Except PyErr ℚ) (d : PyDict) (k : String) :
    Except PyErr PyDict := do
  let v ← dgetE d k
  match v with
  | PyVal.str s =>
    if s ≠ "" then do
      let q ← coe s
      Except.ok (dset d k (PyVal.num q))
    else Except.ok d
  | _ => Except.ok d

/-- The full coercion loop `for key in keys: ...` of the record decoders. -/
def coerceKeys (coe : String → Except PyErr ℚ) (keys : List String)
    (d : PyDict) : Except PyErr PyDict :=
  keys.foldlM (coerceStep coe) d

/-- `_parse_type_1`: hypocenter line decoder. -/
def parse_type_1 (line : String) : Except PyErr PyDict := do
  let ev0 : PyDict := [
    ("year", PyVal.str (pySlice line 1 5)),
    ("month", PyVal.str (pySlice line 6 8)),
    ("day", PyVal.str (pySlice line 8 10)),
    ("hour", PyVal.str (pySlice line 11 13)),
    ("minute", PyVal.str (pySlice line 13 15)),
    ("second", PyVal.str (pySlice line 16 20)),
    ("latitude", PyVal.str (pySlice line 23 30)),
    ("longitude", PyVal.str (pySlice line 30 38)),
    ("depth", PyVal.str (pySlice line 38 43)),
    ("n", PyVal.str (pySlice line 48 51)),
    ("rms", PyVal.str (pySlice line 51 55)),
    ("mag", PyVal.str (pySlice line 55 59))]
  let ev1 := stripVals ev0
  let ev2 ← coerceKeys pyIntQ ["year", "month", "day", "hour", "minute", "n"] ev1
  let ev3 ← coerceKeys pyFloatQ
      ["second", "latitude", "longitude", "depth", "rms", "mag"] ev2
  let ot ← mkOriginTime
      ((dget? ev3 "year").getD PyVal.none)
      ((dget? ev3 "month").getD PyVal.none)
      ((dget? ev3 "day").getD PyVal.none)
      ((dget? ev3 "hour").getD PyVal.none)
      ((dget? ev3 "minute").getD PyVal.none)
      ((dget? ev3 "second").getD PyVal.none)
  let ev4 := dset ev3 "origin_time" ot
  let c ← pyAt line 43
  Except.ok (dset ev4 "fixed_depth" (PyVal.bool (c == "F")))

/-- `_parse_type_2`: the body is `pass`, so the function returns `None`
(not a dict). -/
def parse_type_2 (line : String) : Option PyDict := Option.none

/-- `_parse_type_3`: comment line decoder. -/
def parse_type_3 (line : String) : Except PyErr PyDict :=
  Except.ok [("comment", PyVal.str (pySlice line 1 80))]

/-- The raw column-substring dict built by `_parse_type_phase_nordic2`
(read.py lines 129-136); `qual` and `wgtind` are the single-character
indexes `line[15]` and `line[24]` extracted before the dict is complete. -/
def nordic2RawDict (line qual wgtind : String) : PyDict := [
  ("sta", PyVal.str (pySlice line 1 6)),
  ("cmp", PyVal.str (pySlice line 6 9)),
  ("Net", PyVal.str (pySlice line 10 12)),
  ("loc", PyVal.str (pySlice line 12 14)),
  ("qual", PyVal.str qual),
  ("phase", PyVal.str (pySlice line 16 24)),
  ("wgtind", PyVal.str wgtind),
  ("arr_h", PyVal.str (pySlice line 26 28)),
  ("arr_m", PyVal.str (pySlice line 28 30)),
  ("arr_s", PyVal.str (pySlice line 31 37)),
  ("param1", PyVal.str (pySlice line 37 44)),
  ("param2", PyVal.str (pySlice line 44 50)),
  ("agency", PyVal.str (pySlice line 51 54)),
  ("op", PyVal.str (pySlice line 55 58)),
  ("ain", PyVal.str (pySlice line 59 63)),
  ("tres", PyVal.str (pySlice line 63 68)),
  ("dist", PyVal.str (pySlice line 70 75)),
  ("az", PyVal.str (pySlice line 76 79))]

/-- `_parse_type_phase_nordic2`: nordic2 phase-line decoder.  Note that its
`float_keys` list names `"per"`, `"amp"` and `"trex"`, none of which are
keys of the dict it builds. -/
def parse_type_phase_nordic2 (line : String) (origin : Option ℚ) :
    Except PyErr PyDict := do
  let qual ← pyAt line 15
  let wgtind ← pyAt line 24
  let arr1 := stripVals (nordic2RawDict line qual wgtind)
  let arr2 ← coerceKeys pyIntQ ["arr_h", "arr_m"] arr1
  let arr3 ← coerceKeys pyFloatQ
      ["per", "amp", "arr_s", "ain", "dist", "trex", "az"] arr2
  let a ← mkArrTime ((dget? arr3 "arr_h").getD PyVal.none)
      ((dget? arr3 "arr_m").getD PyVal.none)
      ((dget? arr3 "arr_s").getD PyVal.none) origin
  Except.ok (dset arr3 "arrtime" a)

/-- `_parse_type_phase_nordic`: legacy (format 1) phase-line decoder. -/
def parse_type_phase_nordic (line : String) (origin : Option ℚ) :
    Except PyErr PyDict := do
  let inst ← pyAt line 6
  let cmp ← pyAt line 7
  let qual ← pyAt line 9
  let wgtind ← pyAt line 14
  let pol ← pyAt line 16
  let arr0 : PyDict := [
    ("sta", PyVal.str (pySlice line 1 6)),
    ("inst", PyVal.str inst),
    ("cmp", PyVal.str cmp),
    ("qual", PyVal.str qual),
    ("phase", PyVal.str (pySlice line 10 14)),
    ("wgtind", PyVal.str wgtind),
    ("pol", PyVal.str pol),
    ("arr_h", PyVal.str (pySlice line 18 20)),
    ("arr_m", PyVal.str (pySlice line 20 22)),
    ("arr_s", PyVal.str (pySlice line 22 28)),
    ("amp", PyVal.str (pySlice line 33 40)),
    ("per", PyVal.str (pySlice line 41 45)),
    ("ain", PyVal.str (pySlice line 56 60)),
    ("tres", PyVal.str (pySlice line 63 68)),
    ("dist", PyVal.str (pySlice line 70 75)),
    ("az", PyVal.str (pySlice line 75 79))]
  let arr1 := stripVals arr0
  let arr2 ← coerceKeys pyIntQ ["arr_h", "arr_m"] arr1
  let arr3 ← coerceKeys pyFloatQ
      ["per", "amp", "arr_s", "ain", "tres", "dist", "az"] arr2
  let a ← mkArrTime ((dget? arr3 "arr_h").getD PyVal.none)
      ((dget? arr3 "arr_m").getD PyVal.none)
      ((dget? arr3 "arr_s").getD PyVal.none) origin
  Except.ok (dset arr3 "arrtime" a)

/-- `_parse_type_6`: waveform-file reference decoder. -/
def parse_type_6 (line : String) : Except PyErr PyDict :=
  Except.ok [("wf_location", PyVal.str (pyStrip (pySlice line 1 79)))]

/-- `_parse_type_E`: hypocenter error-estimate decoder; blank sub-fields
become the empty string, non-blank ones are `float`-coerced. -/
def parse_type_E (line : String) : Except PyErr PyDict := do
  let raw : List (String × String) := [
    ("gap", pySlice line 5 8),
    ("otime_err", pySlice line 14 20),
    ("lat_err", pySlice line 23 30),
    ("lon_err", pySlice line 31 38),
    ("z_err", pySlice line 38 43)]
  raw.foldlM (fun acc kv => do
    if pyStrip kv.2 ≠ "" then do
      let q ← pyFloatQ kv.2
      Except.ok (acc ++ [(kv.1, PyVal.num q)])
    else Except.ok (acc ++ [(kv.1, PyVal.str "")])) ([] : PyDict)

/-- `_parse_type_F`: fault-plane solution decoder (raw column substrings). -/
def parse_type_F (line : String) : Except PyErr PyDict :=
  Except.ok [
    ("sdr_aki", PyVal.str (pySlice line 1 30)),
    ("fp_err", PyVal.str (pySlice line 30 45)),
    ("fp_fit_err", PyVal.str (pySlice line 45 50)),
    ("sta_dist_ratio", PyVal.str (pySlice line 50 55)),
    ("amp_ratio_fit", PyVal.str (pySlice line 55 60)),
    ("n_bad_pol", PyVal.str (pySlice line 60 62)),
    ("n_bad_amp", PyVal.str (pySlice line 63 65)),
    ("agency_code", PyVal.str (pySlice line 66 69)),
    ("fp_program", PyVal.str (pySlice line 70 77)),
    ("soln_qual", PyVal.str (pySlice line 77 78))]

/-- `_parse_type_H`: reserved, returns an empty field set. -/
def parse_type_H (line : String) : Except PyErr PyDict := Except.ok []

/-- `_parse_type_I`: reserved, returns an empty field set. -/
def parse_type_I (line : String) : Except PyErr PyDict := Except.ok []

/-- `_parse_type_M`: reserved, returns an empty field set. -/
def parse_type_M (line : String) : Except PyErr PyDict := Except.ok []

/-- `_parse_type_P`: reserved, returns an empty field set. -/
def parse_type_P (line : String) : Except PyErr PyDict := Except.ok []

/-- `_parse_type_S`: reserved, returns an empty field set. -/
def parse_type_S (line : String) : Except PyErr PyDict := Except.ok []

/-- `_parse_type_EC3`: explosion-information decoder. -/
def parse_type_EC3 (line : String) : Except PyErr PyDict :=
  Except.ok [
    ("ex_info", PyVal.str (pySlice line 1 11)),
    ("ex_charge", PyVal.str (pySlice line 12 22)),
    ("ex_extra_info", PyVal.str (pySlice line 23 77))]

/-- Python `line.split()`: tokens separated by runs of whitespace. -/
def pySplitWs (s : String) : List String :=
  ((s.data.foldr (fun c acc =>
      if c.isWhitespace then [] :: acc
      else match acc with
           | [] => [[c]]
           | t :: rest => (c :: t) :: rest) []).filter
    (fun t => ¬ t.isEmpty)).map String.mk

/-- The "MACRO3" decoder (`_parse_type_macro` in the source): the first
whitespace-delimited token of the line. -/
def parse_type_mac3 (line : String) : Except PyErr PyDict :=
  match pySplitWs line with
  | [] => Except.error PyErr.indexError
  | t :: _ => Except.ok [("macro_file", PyVal.str t)]

/-- The record-type classifier at the top of `read_sfile`'s loop (read.py
lines 25-30).  `prev` is the value the Python local `type_line` holds from
the previous iteration.  The `MACRO3` arm of the source reads
`type_line == "MACRO3"` — a comparison, not an assignment — so in that arm
`type_line` keeps its previous value, and on the first classified line it
is unbound (`UnboundLocalError`). -/
def classify (prev : Option String) (line : String) : Except PyErr String :=
  if pyTakeRight line 3 == "EC3" then Except.ok "EC3"
  else if pyTakeRight line 6 == "MACRO3" then
    match prev with
    | Option.some t => Except.ok t
    | Option.none => Except.error PyErr.unboundLocal
  else pyAt line 79

/-- Merge a decoder result into the event via `update_from_dict`,
propagating any decoder exception. -/
def updateWith (ev : Event) (r : Except PyErr PyDict) : Except PyErr Event := do
  let d ← r
  Except.ok (ev.update_from_dict d)

/-- A phase-line step of `read_sfile`: thread the origin date into the
decoder when `event.origin_time` is truthy (the source calls
`origin_time.strftime`, an `AttributeError` on a truthy non-datetime), then
append the decoded dict via `add_arrivals_from_dict`. -/
def arrivalStep (ev : Event) (p : Option ℚ → Except PyErr PyDict) :
    Except PyErr Event := do
  let d ←
    match ev.getattr "origin_time" with
    | PyVal.dt o => p (Option.some o)
    | v =>
      if v.truthy then Except.error PyErr.attributeError
      else p Option.none
  Except.ok (ev.add_arrivals_from_dict d)

/-- The `elif` dispatch chain of `read_sfile`, in source order.  The type-2
arm crashes because `_parse_type_2` returns `None` and
`update_from_dict(None)` calls `None.items()` (`AttributeError`).  A tag
matching no arm falls through and leaves the event untouched. -/
def dispatchLine (format : ℕ) (read_arrivals : Bool) (ev : Event)
    (tl : String) (line : String) : Except PyErr Event :=
  if tl == "1" then updateWith ev (parse_type_1 line)
  else if tl == "2" then
    match parse_type_2 line with
    | Option.some d => Except.ok (ev.update_from_dict d)
    | Option.none => Except.error PyErr.attributeError
  else if tl == "3" then updateWith ev (parse_type_3 line)
  else if tl == " " && read_arrivals && format == 1 then
    arrivalStep ev (parse_type_phase_nordic line)
  else if tl == " " && read_arrivals && format == 2 then
    arrivalStep ev (parse_type_phase_nordic2 line)
  else if tl == "6" then updateWith ev (parse_type_6 line)
  else if tl == "E" then updateWith ev (parse_type_E line)
  else if tl == "F" then updateWith ev (parse_type_F line)
  else if tl == "H" then updateWith ev (parse_type_H line)
  else if tl == "I" then updateWith ev (parse_type_I line)
  else if tl == "M" then updateWith ev (parse_type_M line)
  else if tl == "P" then updateWith ev (parse_type_P line)
  else if tl == "S" then updateWith ev (parse_type_S line)
  else if tl == "EC3" then updateWith ev (parse_type_EC3 line)
  else if tl == "MACRO3" then updateWith ev (parse_type_mac3 line)
  else Except.ok ev

/-- One iteration of `read_sfile`'s line loop: skip blank lines (which also
leave `type_line` untouched), classify, dispatch. -/
def processLine (format : ℕ) (read_arrivals : Bool)
    (st : Event × Option String) (line : String) :
    Except PyErr (Event × Option String) :=
  if pyStrip line == "" then Except.ok st
  else do
    let tl ← classify st.2 line
    let ev' ← dispatchLine format read_arrivals st.1 tl line
    Except.ok (ev', Option.some tl)

/-- `read_sfile`, with the opened file presented as its list of lines:
reject format versions other than 1 and 2, fold the line loop over a fresh
`Event`, and finally record the Sfile path on the event. -/
def read_sfile (path : String) (format : ℕ) (read_arrivals : Bool)
    (lines : List String) : Except PyErr Event :=
  if format ≠ 1 ∧ format ≠ 2 then Except.error PyErr.valueError
  else do
    let st ← lines.foldlM (processLine format read_arrivals)
        (({} : Event), (Option.none : Option String))
    Except.ok { st.1 with sfile := PyVal.str path }

/-- IEEE-style extended values produced by numpy arithmetic: NaN, the two
infinities, and finite values (kept exact as rationals). -/
inductive NF where
  | nan
  | pinf
  | ninf
  | val (q : ℚ)
  deriving Repr, DecidableEq

/-- Negation on `NF`. -/
def nfNeg : NF → NF
  | NF.nan => NF.nan
  | NF.pinf => NF.ninf
  | NF.ninf => NF.pinf
  | NF.val q => NF.val (-q)

/-- Addition on `NF` (IEEE rules: NaN propagates, `∞ + (-∞) = NaN`). -/
def nfAdd : NF → NF → NF
  | NF.nan, _ => NF.nan
  | _, NF.nan => NF.nan
  | NF.val a, NF.val b => NF.val (a + b)
  | NF.pinf, NF.ninf => NF.nan
  | NF.ninf, NF.pinf => NF.nan
  | NF.pinf, _ => NF.pinf
  | _, NF.pinf => NF.pinf
  | NF.ninf, _ => NF.ninf
  | _, NF.ninf => NF.ninf

/-- Subtraction on `NF`. -/
def nfSub (a b : NF) : NF := nfAdd a (nfNeg b)

/-- Multiplication on `NF` (IEEE rules: NaN propagates, `∞ * 0 = NaN`). -/
def nfMul : NF → NF → NF
  | NF.nan, _ => NF.nan
  | _, NF.nan => NF.nan
  | NF.val a, NF.val b => NF.val (a * b)
  | NF.pinf, NF.val b => if 0 < b then NF.pinf else if b < 0 then NF.ninf else NF.nan
  | NF.ninf, NF.val b => if 0 < b then NF.ninf else if b < 0 then NF.pinf else NF.nan
  | NF.val a, NF.pinf => if 0 < a then NF.pinf else if a < 0 then NF.ninf else NF.nan
  | NF.val a, NF.ninf => if 0 < a then NF.ninf else if a < 0 then NF.pinf else NF.nan
  | NF.pinf, NF.pinf => NF.pinf
  | NF.pinf, NF.ninf => NF.ninf
  | NF.ninf, NF.pinf => NF.ninf
  | NF.ninf, NF.ninf => NF.pinf

/-- `np.mean` / `np.array(...).mean()`: NaN on an empty array, the exact
average otherwise. -/
def npMeanQ (l : List ℚ) : NF :=
  if l.isEmpty then NF.nan else NF.val (l.sum / (l.length : ℚ))

/-- `least_squares_bf` from `SeisanUtil/util.py`: ordinary least squares.
`slope = Σ(x-x̄)(y-ȳ) / Σ(x-x̄)²` — a numpy scalar division, so a zero
denominator yields NaN (when the numerator is zero) or ±∞, with only a
runtime warning; no exception is raised.  Returns
`(slope*x + b, slope, b)`. -/
def least_squares_bf (x y : List ℚ) : List NF × NF × NF :=
  match npMeanQ x, npMeanQ y with
  | NF.val xb, NF.val yb =>
    let num := ((x.zip y).map (fun p => (p.1 - xb) * (p.2 - yb))).sum
    let den := (x.map (fun xi => (xi - xb) ^ 2)).sum
    let slope : NF :=
      if den ≠ 0 then NF.val (num / den)
      else if num = 0 then NF.nan
      else if 0 < num then NF.pinf
      else NF.ninf
    let b := nfSub (NF.val yb) (nfMul slope (NF.val xb))
    (x.map (fun xi => nfAdd (nfMul slope (NF.val xi)) b), slope, b)
  | _, _ => ([], NF.nan, NF.nan)

/-- `calc_dist` from `SeisanUtil/util.py`: planar degree distance scaled by
111.11 km/degree.  `np.sqrt` is a floating-point function and is passed in
as a parameter. -/
def calc_dist (sqrt : ℚ → ℚ) (x1 x2 : ℚ × ℚ) : ℚ :=
  sqrt ((x1.1 - x2.1) ^ 2 + (x1.2 - x2.2) ^ 2) * (11111 / 100)

/-- `math.isclose` with its default tolerances
(`rel_tol = 1e-9`, `abs_tol = 0.0`). -/
def isclose (a b : ℚ) : Bool :=
  |a - b| ≤ max ((1 / 1000000000) * max |a| |b|) 0

/-- `calc_dist_geo` from `SeisanUtil/util.py`, split at its degenerate-case
guard: numerically identical points short-circuit to `(0, 0, 0)`; otherwise
the Vincenty solver (`core`, floating-point trigonometry abstracted as a
parameter) runs on the two points. -/
def calc_dist_geo (core : ℚ × ℚ → ℚ × ℚ → Except PyErr (ℚ × ℚ × ℚ))
    (x1 x2 : ℚ × ℚ) : Except PyErr (ℚ × ℚ × ℚ) :=
  if isclose x1.1 x2.1 && isclose x1.2 x2.2 then Except.ok (0, 0, 0)
  else core x1 x2

/-- The iteration scheme of the Vincenty loop in `calc_dist_geo` (util.py
lines 82-118), with the loop body's floating-point state update abstracted
as `step` and the `while` test as `cond`.  One Python iteration runs the
body (`step`; a math-domain `ValueError` is caught and re-raised as
`StopIteration`), then decrements `iterlimit` and raises `StopIteration`
when it drops below zero.  `n` is the current value of `iterlimit`; the
source enters the loop with `iterlimit = 100`. -/
def vincentyLoop {S : Type} (cond : S → Bool) (step : S → Option S) :
    ℕ → S → Except PyErr S
  | n, s =>
    if cond s then
      match step s with
      | Option.none => Except.error PyErr.stopIteration
      | Option.some s' =>
        match n with
        | 0 => Except.error PyErr.stopIteration
        | Nat.succ m => vincentyLoop cond step m s'
    else Except.ok s

/-- Number of times `vincentyLoop` executes the loop body (`step`),
counting the execution during which a domain error or the iteration-limit
abort occurs. -/
def vincentyLoopSteps {S : Type} (cond : S → Bool) (step : S → Option S) :
    ℕ → S → ℕ
  | n, s =>
    if cond s then
      match step s with
      | Option.none => 1
      | Option.some s' =>
        match n with
        | 0 => 1
        | Nat.succ m => 1 + vincentyLoopSteps cond step m s'
    else 0

/-- Numeric content of a `PyVal` used in arithmetic: a non-number operand
raises `TypeError`. -/
def pyNumOf : PyVal → Except PyErr ℚ
  | PyVal.num q => Except.ok q
  | _ => Except.error PyErr.typeError

/-- Python `float(v)` on a scalar value. -/
def pyFloatOfVal : PyVal → Except PyErr ℚ
  | PyVal.num q => Except.ok q
  | PyVal.str s => pyFloatQ s
  | PyVal.bool b => Except.ok (if b then 1 else 0)
  | _ => Except.error PyErr.typeError

/-- Lookup in the station-coordinate mapping `self.sta_coords`. -/
def scLookup (sc : List (String × PyVal × PyVal)) (k : String) :
    Option (PyVal × PyVal) :=
  (List.find? (fun p => p.1 == k) sc).map (fun p => p.2)

/-- `Event.add_station_coords`.  With `arrivals_only` the station names of
all phase and amplitude records are collected, deduplicated
(`list(set(...))`; the Python set's iteration order is hash-dependent, the
embedding keeps first occurrence), each looked up in the supplied mapping
(`KeyError` on a miss) and stored `float`-coerced. -/
def Event.add_station_coords (ev : Event)
    (sc : List (String × PyVal × PyVal)) (arrivals_only : Bool) :
    Except PyErr Event :=
  if arrivals_only then
    if ev.phase_arrivals.isEmpty && ev.amplitudes.isEmpty then
      Except.error PyErr.valueError
    else do
      let stas ← (ev.phase_arrivals ++ ev.amplitudes).mapM (fun a => do
        let v ← dgetE a "sta"
        match v with
        | PyVal.str s => Except.ok s
        | _ => Except.error PyErr.typeError)
      let coords ← stas.eraseDups.foldlM (fun acc s => do
          match scLookup sc s with
          | Option.none => Except.error (PyErr.keyError s)
          | Option.some c => do
            let la ← pyFloatOfVal c.1
            let lo ← pyFloatOfVal c.2
            Except.ok (acc ++ [(s, (PyVal.num la, PyVal.num lo))]))
        ([] : List (String × PyVal × PyVal))
      Except.ok { ev with sta_coords := coords }
  else Except.ok { ev with sta_coords := sc }

/-- Python `max(l)` on a list of numbers: `ValueError` on an empty list. -/
def pyMax (l : List ℚ) : Except PyErr ℚ :=
  match l with
  | [] => Except.error PyErr.valueError
  | h :: t => Except.ok (t.foldl max h)

/-- Insertion sort on rationals (ascending), used by the `np.median`
model. -/
def insertSorted (q : ℚ) : List ℚ → List ℚ
  | [] => [q]
  | x :: xs => if q ≤ x then q :: x :: xs else x :: insertSorted q xs

/-- Ascending sort of a rational list. -/
def sortQ (l : List ℚ) : List ℚ := l.foldr insertSorted []

/-- `np.median`: middle of the sorted data, or the average of the two
middle elements for an even count; NaN on an empty array. -/
def npMedian (l : List ℚ) : NF :=
  let s := sortQ l
  let n := s.length
  if n = 0 then NF.nan
  else if n % 2 = 1 then NF.val (s.getD (n / 2) 0)
  else NF.val ((s.getD (n / 2 - 1) 0 + s.getD (n / 2) 0) / 2)

/-- Round half to even (numpy's rounding mode). -/
def roundHE (q : ℚ) : ℤ :=
  let f := ⌊q⌋
  let r := q - (f : ℚ)
  if r < 1 / 2 then f
  else if 1 / 2 < r then f + 1
  else if f % 2 = 0 then f
  else f + 1

/-- `round(x, 1)` on a numpy scalar: round half to even at one decimal. -/
def npRound1 (q : ℚ) : ℚ := ((roundHE (q * 10) : ℤ) : ℚ) / 10

/-- `round(x, 1)` lifted to `NF` (NaN and infinities round to themselves). -/
def nfRound1 : NF → NF
  | NF.val q => NF.val (npRound1 q)
  | v => v

/-- Append a station magnitude to the `sta_mags` dictionary of `_kim`
(`sta_mags[sta].append(mag)` or `sta_mags[sta] = [mag]`), preserving
insertion order. -/
def smAppend (sm : List (String × List ℚ)) (sta : String) (m : ℚ) :
    List (String × List ℚ) :=
  match sm with
  | [] => [(sta, [m])]
  | (k, v) :: t =>
    if k == sta then (k, v ++ [m]) :: t else (k, v) :: smAppend t sta m

/-- `Event._kim`: the Kim (1998) local-magnitude estimator.  `np.sqrt`
(inside `calc_dist`) and `np.log10` are floating-point functions passed in
as parameters.  For each amplitude record the station's coordinates are
read from `self.sta_coords[sta]` — a station missing from the mapping
raises `KeyError` (the first such access is in the debug `print`) — and a
station magnitude `log10(amp/1000) + 1.55*log10(dist) - 0.22` is recorded.
This definition is one iteration of that loop over `self.amplitudes`. -/
def kimStep (sqrt log10 : ℚ → ℚ) (ev : Event)
    (sm : List (String × List ℚ)) (amp : PyDict) :
    Except PyErr (List (String × List ℚ)) := do
  let stav ← dgetE amp "sta"
  let sta ←
    match stav with
    | PyVal.str s => Except.ok s
    | _ => Except.error PyErr.typeError
  let c ←
    match scLookup ev.sta_coords sta with
    | Option.some c => Except.ok c
    | Option.none => Except.error (PyErr.keyError sta)
  let slat ← pyNumOf c.1
  let slon ← pyNumOf c.2
  let elat ← pyNumOf (ev.getattr "latitude")
  let elon ← pyNumOf (ev.getattr "longitude")
  let sta_dist := calc_dist sqrt (slat, slon) (elat, elon)
  let av ← dgetE amp "amp"
  let a ← pyNumOf av
  let mag := log10 (a / 1000) + (155 / 100) * log10 sta_dist - 22 / 100
  Except.ok (smAppend sm sta mag)

/-- The `_kim` estimator, continued: the station-magnitude loop is
`kimStep` folded over the amplitude records.  Per-station lists are reduced
with `max`, and the network magnitude is the rounded mean (or median, when
requested) of the station maxima.  (`cmp_combine`, `min_dist` and
`max_dist` are accepted but never used by the source.) -/
def Event.kim (sqrt log10 : ℚ → ℚ) (ev : Event)
    (sta_coords : Option (List (String × PyVal × PyVal)))
    (cmp_combine netmag_type : String) (min_dist max_dist : ℚ) :
    Except PyErr NF := do
  let ev ←
    if ev.sta_coords.isEmpty then
      match sta_coords with
      | Option.some sc => ev.add_station_coords sc true
      | Option.none => Except.error PyErr.valueError
    else Except.ok ev
  let sta_mags ← ev.amplitudes.foldlM (kimStep sqrt log10 ev)
      ([] : List (String × List ℚ))
  let maxes ← sta_mags.mapM (fun kv => pyMax kv.2)
  if netmag_type == "median" then Except.ok (nfRound1 (npMedian maxes))
  else Except.ok (nfRound1 (npMeanQ maxes))

/-! ## Theorems for the specification claims -/

lemma isclose_self (a : ℚ) : isclose a a = true := by
  simp only [isclose, sub_self, abs_zero, decide_eq_true_eq]
  exact le_max_right _ _

/-- C5: on numerically identical (lat, lon) pairs, `calc_dist_geo`
short-circuits to exactly `(0.0, 0.0, 0.0)` without entering the Vincenty
iteration (the conclusion holds whatever the abstracted Vincenty core
would do, so the core is never consulted). -/
theorem calc_dist_geo_identical_short_circuit
    (core : ℚ × ℚ → ℚ × ℚ → Except PyErr (ℚ × ℚ × ℚ)) (x1 x2 : ℚ × ℚ)
    (h : x1 = x2) : calc_dist_geo core x1 x2 = Except.ok (0, 0, 0) := by
  subst h
  simp [calc_dist_geo, isclose_self]

/-- Witness for C5 at a concrete coordinate pair, with a Vincenty core that
would fail if it were entered. -/
theorem calc_dist_geo_identical_short_circuit_witness :
    calc_dist_geo (fun _ _ => Except.error PyErr.stopIteration)
      (40, -75) (40, -75) = Except.ok (0, 0, 0) :=
  calc_dist_geo_identical_short_circuit _ _ _ rfl

lemma vincentyLoopSteps_le {S : Type} (cond : S → Bool) (step : S → Option S) :
    ∀ (n : ℕ) (s : S), vincentyLoopSteps cond step n s ≤ n + 1 := by
  intro n
  induction n with
  | zero =>
    intro s
    unfold vincentyLoopSteps
    split
    · cases step s <;> simp
    · simp
  | succ m ih =>
    intro s
    unfold vincentyLoopSteps
    split
    · cases step s with
      | none => simp
      | some s' =>
        have := ih s'
        simp only []
        omega
    · simp

lemma vincentyLoop_ok_or_stop {S : Type} (cond : S → Bool)
    (step : S → Option S) :
    ∀ (n : ℕ) (s : S),
      (∃ s', vincentyLoop cond step n s = Except.ok s' ∧ cond s' = false) ∨
        vincentyLoop cond step n s = Except.error PyErr.stopIteration := by
  intro n
  induction n with
  | zero =>
    intro s
    unfold vincentyLoop
    by_cases h : cond s
    · cases hs : step s <;> simp [h, hs]
    · left
      exact ⟨s, by simp [h], by simpa using h⟩
  | succ m ih =>
    intro s
    unfold vincentyLoop
    by_cases h : cond s
    · cases hs : step s with
      | none => simp [h, hs]
      | some s' => simpa [h, hs] using ih s'
    · left
      exact ⟨s, by simp [h], by simpa using h⟩

/-- C6 (amended): the Vincenty loop of `calc_dist_geo` is hard-capped — it
executes its body at most 101 times from the source's initial
`iterlimit = 100` (not 100 times: the `StopIteration` abort is raised at
the end of the 101st body execution) — and it never returns an unconverged
state: every run either returns a state failing the loop condition or
raises `StopIteration`, which also covers a math-domain error inside the
body (`step` returning `none`). -/
theorem vincenty_iteration_cap {S : Type} (cond : S → Bool)
    (step : S → Option S) (s : S) :
    vincentyLoopSteps cond step 100 s ≤ 101 ∧
      ((∃ s', vincentyLoop cond step 100 s = Except.ok s' ∧ cond s' = false) ∨
        vincentyLoop cond step 100 s = Except.error PyErr.stopIteration) :=
  ⟨vincentyLoopSteps_le cond step 100 s,
    vincentyLoop_ok_or_stop cond step 100 s⟩

set_option maxRecDepth 4000 in
/-- Counterexample for C6 as stated: a body that never converges is
executed 101 times (strictly more than 100), and a computation that would
converge exactly at its 101st iteration is aborted with `StopIteration`
instead. -/
theorem vincenty_cap_counterexample :
    vincentyLoopSteps (fun (_ : ℕ) => true) (fun k => Option.some (k + 1))
        100 0 = 101 ∧
      vincentyLoop (fun (k : ℕ) => k != 101) (fun k => Option.some (k + 1))
        100 0 = Except.error PyErr.stopIteration := by
  constructor <;> rfl

/-- C1: the `MACRO3` arm of the record-type classifier is broken — source
line 28 reads `type_line == "MACRO3"` (a comparison, not an assignment) —
so a line ending in "MACRO3" never gets the `MacroObservationRef` tag:
on the first classified line the tag variable is unbound
(`UnboundLocalError`), and otherwise the previous line's tag is silently
reused. -/
theorem classify_mac3_assignment_bug :
    classify Option.none "MACRO3" = Except.error PyErr.unboundLocal ∧
    classify (Option.some "1") "XMACRO3" = Except.ok "1" ∧
    classify (Option.some "1") "XMACRO3" ≠ Except.ok "MACRO3" := by
  refine ⟨rfl, rfl, ?_⟩
  intro h
  have h1 : classify (Option.some "1") "XMACRO3" = Except.ok "1" := rfl
  rw [h1] at h
  exact absurd (Except.ok.inj h) (by decide)

/-- Counterexample for C8 as stated: on `x = [1, 1]` (zero variance) and
`y = [4, 1]`, `least_squares_bf` does not raise — it returns normally, with
NaN slope, NaN intercept and NaN fitted values (numpy turns the `0/0` into
NaN with only a runtime warning). -/
theorem least_squares_zero_variance_counterexample :
    least_squares_bf [1, 1] [4, 1] = ([NF.nan, NF.nan], NF.nan, NF.nan) := by
  norm_num [least_squares_bf, npMeanQ, nfMul, nfAdd, nfSub, nfNeg]

/-- C8 (amended): for every pair of equal-length input sequences whose
x-values have zero variance (all equal), `least_squares_bf` silently
returns NaN for the slope, the intercept, and every fitted y-value, rather
than raising an error. -/
theorem least_squares_zero_variance_nan (x y : List ℚ) (c : ℚ)
    (hx : x ≠ []) (hlen : x.length = y.length) (hc : ∀ xi ∈ x, xi = c) :
    (least_squares_bf x y).2.1 = NF.nan ∧ (least_squares_bf x y).2.2 = NF.nan ∧
      ∀ v ∈ (least_squares_bf x y).1, v = NF.nan := by
  have hrep : x = List.replicate x.length c := List.eq_replicate_length.mpr hc
  have hnx : (x.length : ℚ) ≠ 0 := by
    exact_mod_cast fun h => hx (List.length_eq_zero.mp h)
  have hmx : npMeanQ x = NF.val c := by
    unfold npMeanQ
    rw [if_neg (by simpa [List.isEmpty_iff] using hx)]
    congr 1
    conv_lhs => rw [hrep]
    rw [List.sum_replicate, List.length_replicate, nsmul_eq_mul]
    field_simp
  have hy : ¬ y.isEmpty = true := by
    simp only [List.isEmpty_iff]
    intro h
    apply hx
    apply List.length_eq_zero.mp
    rw [hlen, h]
    rfl
  have hmy : npMeanQ y = NF.val (y.sum / (y.length : ℚ)) := by
    unfold npMeanQ
    rw [if_neg hy]
  have hden : (x.map (fun xi => (xi - c) ^ 2)).sum = 0 := by
    apply List.sum_eq_zero
    intro z hz
    obtain ⟨xi, hxi, hzz⟩ := List.mem_map.mp hz
    rw [← hzz, hc xi hxi]
    ring
  have hnum : ((x.zip y).map
      (fun p => (p.1 - c) * (p.2 - y.sum / (y.length : ℚ)))).sum = 0 := by
    apply List.sum_eq_zero
    intro z hz
    obtain ⟨p, hp, hzz⟩ := List.mem_map.mp hz
    rw [← hzz, hc p.1 (List.of_mem_zip hp).1]
    ring
  simp only [least_squares_bf, hmx, hmy, hden, hnum]
  refine ⟨?_, ?_, ?_⟩
  · simp
  · simp [nfMul, nfSub, nfNeg, nfAdd]
  · intro v hv
    simp only [ne_eq, not_true_eq_false, if_false, if_pos] at hv
    obtain ⟨xi, hxi, hvv⟩ := List.mem_map.mp (by simpa using hv)
    rw [← hvv]
    simp [nfMul, nfAdd]

/-- Witness for the amended C8 at the concrete zero-variance input
`x = [1, 1]`, `y = [4, 1]`. -/
theorem least_squares_zero_variance_nan_witness :
    (least_squares_bf [1, 1] [4, 1]).2.1 = NF.nan ∧
      (least_squares_bf [1, 1] [4, 1]).2.2 = NF.nan ∧
      ∀ v ∈ (least_squares_bf [1, 1] [4, 1]).1, v = NF.nan :=
  least_squares_zero_variance_nan [1, 1] [4, 1] 1 (by decide) (by decide)
    (by decide)

/-- Well-formedness of a parsed arrival dict as far as `calc_ttimes` reads
it: the four accessed keys exist and the arrival time is a datetime (the
shape every record produced by the phase-line decoders has). -/
def wfArrival (arr : PyDict) : Prop :=
  (∃ v, dget? arr "sta" = Option.some v) ∧
  (∃ v, dget? arr "phase" = Option.some v) ∧
  (∃ v, dget? arr "dist" = Option.some v) ∧
  (∃ t, dget? arr "arrtime" = Option.some (PyVal.dt t))

/-- Elapsed seconds of an arrival relative to an origin time `T` (reading
the arrival timestamp out of the dict). -/
def arrElapsed (arr : PyDict) (T : ℚ) : ℚ :=
  match dget? arr "arrtime" with
  | Option.some (PyVal.dt t) => t - T
  | _ => 0

/-- Travel-time entries as the specification describes them: one entry per
arrival whose distance value is truthy, in input order, carrying station,
phase, distance and the elapsed seconds `arrival - origin`. -/
def ttimesSpec (arrs : List PyDict) (T : ℚ) : List TT :=
  arrs.filterMap (fun arr =>
    let dist := (dget? arr "dist").getD PyVal.none
    if dist.truthy then
      Option.some (TT.mk ((dget? arr "sta").getD PyVal.none)
        ((dget? arr "phase").getD PyVal.none) dist (arrElapsed arr T))
    else Option.none)

/-- Folding `ttStep` over well-formed arrivals with a set origin time
appends exactly the specified entries. -/
lemma ttStep_fold (ev : Event) (T : ℚ)
    (hT : ev.getattr "origin_time" = PyVal.dt T) :
    ∀ (arrs : List PyDict), (∀ arr ∈ arrs, wfArrival arr) →
      ∀ (acc : List TT),
        arrs.foldlM (ttStep ev) acc = Except.ok (acc ++ ttimesSpec arrs T) := by
  intro arrs
  induction arrs with
  | nil => intro _ acc; simp [ttimesSpec, List.foldlM]; rfl
  | cons a as ih =>
    intro hwf acc
    obtain ⟨⟨sv, hs⟩, ⟨pv, hp⟩, ⟨dv, hd⟩, ⟨t, ht⟩⟩ := hwf a (by simp)
    have hspec : ttimesSpec (a :: as) T =
        (if dv.truthy then
          [TT.mk sv pv dv (t - T)] else []) ++ ttimesSpec as T := by
      simp only [ttimesSpec, List.filterMap_cons, hd, hs, hp, Option.getD_some]
      by_cases hdt : dv.truthy
      · simp [hdt, arrElapsed, ht]
      · simp [hdt]
    by_cases hdt : dv.truthy
    · have hstep : ttStep ev acc a =
          Except.ok (acc ++ [TT.mk sv pv dv (t - T)]) := by
        simp [ttStep, dgetE, hs, hp, hd, ht, hdt, hT, pySubSeconds,
          Bind.bind, Except.bind]
      simp only [List.foldlM_cons, hstep, Bind.bind, Except.bind]
      rw [ih (fun arr h => hwf arr (by simp [h])) _]
      simp [hspec, hdt]
    · have hstep : ttStep ev acc a = Except.ok acc := by
        simp [ttStep, dgetE, hd, hdt, Bind.bind, Except.bind]
      simp only [List.foldlM_cons, hstep, Bind.bind, Except.bind]
      rw [ih (fun arr h => hwf arr (by simp [h])) _]
      simp [hspec, hdt]

/-- C3 (amended): for every event with a set origin time, whose arrival
records are well-formed and whose `ttimes` cache starts empty,
`calc_ttimes` returns one entry per arrival with a truthy (non-absent and
nonzero) distance, in the order of the underlying arrival records, each
with elapsed time equal to the arrival timestamp minus the origin time in
seconds.  (The claim said "non-absent": the code's `if not arr["dist"]`
also skips a present distance of `0.0`.) -/
theorem calc_ttimes_order_and_elapsed (ev : Event) (T : ℚ)
    (h0 : ev.ttimes = []) (hT : ev.getattr "origin_time" = PyVal.dt T)
    (hwf : ∀ arr ∈ ev.phase_arrivals, wfArrival arr) :
    ev.calc_ttimes = Except.ok (ttimesSpec ev.phase_arrivals T,
      { ev with ttimes := ttimesSpec ev.phase_arrivals T }) := by
  unfold Event.calc_ttimes
  rw [h0, ttStep_fold ev T hT ev.phase_arrivals hwf []]
  simp [Bind.bind, Except.bind]

/-- Witness for the amended C3: origin at `T`, arrivals at `T + 5.0` s and
`T + 7.5` s yield elapsed times exactly `5.0` and `7.5`, in input order
(the spec's own example). -/
theorem calc_ttimes_order_and_elapsed_witness :
    Event.calc_ttimes
      { attrs := [("origin_time", PyVal.dt 0)],
        phase_arrivals := [
          [("sta", PyVal.str "sta1"), ("phase", PyVal.str "P"),
           ("dist", PyVal.num 10), ("arrtime", PyVal.dt 5)],
          [("sta", PyVal.str "sta2"), ("phase", PyVal.str "P"),
           ("dist", PyVal.num 10), ("arrtime", PyVal.dt (15 / 2))]] } =
      Except.ok
        ([TT.mk (PyVal.str "sta1") (PyVal.str "P") (PyVal.num 10) 5,
          TT.mk (PyVal.str "sta2") (PyVal.str "P") (PyVal.num 10) (15 / 2)],
         { attrs := [("origin_time", PyVal.dt 0)],
           phase_arrivals := [
             [("sta", PyVal.str "sta1"), ("phase", PyVal.str "P"),
              ("dist", PyVal.num 10), ("arrtime", PyVal.dt 5)],
             [("sta", PyVal.str "sta2"), ("phase", PyVal.str "P"),
              ("dist", PyVal.num 10), ("arrtime", PyVal.dt (15 / 2))]],
           ttimes := [TT.mk (PyVal.str "sta1") (PyVal.str "P") (PyVal.num 10) 5,
             TT.mk (PyVal.str "sta2") (PyVal.str "P") (PyVal.num 10) (15 / 2)] }) := by
  have h := calc_ttimes_order_and_elapsed
    { attrs := [("origin_time", PyVal.dt 0)],
      phase_arrivals := [
        [("sta", PyVal.str "sta1"), ("phase", PyVal.str "P"),
         ("dist", PyVal.num 10), ("arrtime", PyVal.dt 5)],
        [("sta", PyVal.str "sta2"), ("phase", PyVal.str "P"),
         ("dist", PyVal.num 10), ("arrtime", PyVal.dt (15 / 2))]] } 0 rfl rfl
    (by intro arr harr
        fin_cases harr <;>
          exact ⟨⟨_, rfl⟩, ⟨_, rfl⟩, ⟨_, rfl⟩, ⟨_, rfl⟩⟩)
  rw [h]
  simp [ttimesSpec, arrElapsed, dget?, List.find?, PyVal.truthy]

/-- Counterexample for C3 as stated: an arrival whose distance field is
present (non-absent) but equal to `0.0` is skipped — `calc_ttimes` returns
no entry for it, though the claim requires one entry per arrival with a
non-absent distance. -/
theorem calc_ttimes_zero_distance_skipped :
    Event.calc_ttimes
        { attrs := [("origin_time", PyVal.dt 0)],
          phase_arrivals := [[("sta", PyVal.str "A"), ("phase", PyVal.str "P"),
            ("dist", PyVal.num 0), ("arrtime", PyVal.dt 5)]] } =
      Except.ok ([],
        { attrs := [("origin_time", PyVal.dt 0)],
          phase_arrivals := [[("sta", PyVal.str "A"), ("phase", PyVal.str "P"),
            ("dist", PyVal.num 0), ("arrtime", PyVal.dt 5)]] }) := by
  simp [Event.calc_ttimes, List.foldlM, ttStep, dgetE, dget?, List.find?,
    PyVal.truthy, Bind.bind, Except.bind, pure, Except.pure]

/-- Folding `ttStep` with no origin time set raises `TypeError`
(`datetime - None`) at the first truthy-distance arrival. -/
lemma ttStep_fold_missing_origin (ev : Event)
    (hT : ev.getattr "origin_time" = PyVal.none) :
    ∀ (arrs : List PyDict),
      (∀ arr ∈ arrs, (∃ v, dget? arr "dist" = Option.some v) ∧
        (∃ t, dget? arr "arrtime" = Option.some (PyVal.dt t))) →
      (∃ arr ∈ arrs, ((dget? arr "dist").getD PyVal.none).truthy) →
      ∀ acc, arrs.foldlM (ttStep ev) acc = Except.error PyErr.typeError := by
  intro arrs
  induction arrs with
  | nil => intro _ hex; simp at hex
  | cons a as ih =>
    intro hwf hex acc
    obtain ⟨⟨dv, hd⟩, ⟨t, ht⟩⟩ := hwf a (by simp)
    by_cases hdt : dv.truthy
    · have hstep : ttStep ev acc a = Except.error PyErr.typeError := by
        simp [ttStep, dgetE, hd, ht, hdt, hT, pySubSeconds, Bind.bind,
          Except.bind]
      simp [List.foldlM_cons, hstep, Bind.bind, Except.bind]
    · have hstep : ttStep ev acc a = Except.ok acc := by
        simp [ttStep, dgetE, hd, hdt, Bind.bind, Except.bind]
      simp only [List.foldlM_cons, hstep, Bind.bind, Except.bind]
      apply ih (fun arr h => hwf arr (by simp [h]))
      rcases hex with ⟨arr, harr, htr⟩
      rcases List.mem_cons.mp harr with rfl | hmem
      · rw [hd] at htr
        simp only [Option.getD_some] at htr
        exact absurd htr hdt
      · exact ⟨arr, hmem, htr⟩

/-- C4 (amended): for every event with no origin time whose arrival
records carry a distance key and datetime arrival times, if at least one
arrival has a truthy (non-absent and nonzero) distance then `calc_ttimes`
fails — the `MissingOriginTime` condition, realized as the `TypeError`
raised by `arr["arrtime"] - None` — rather than returning a result. -/
theorem calc_ttimes_missing_origin_fails (ev : Event)
    (hT : ev.getattr "origin_time" = PyVal.none)
    (hwf : ∀ arr ∈ ev.phase_arrivals,
      (∃ v, dget? arr "dist" = Option.some v) ∧
      (∃ t, dget? arr "arrtime" = Option.some (PyVal.dt t)))
    (hex : ∃ arr ∈ ev.phase_arrivals,
      ((dget? arr "dist").getD PyVal.none).truthy) :
    ev.calc_ttimes = Except.error PyErr.typeError := by
  unfold Event.calc_ttimes
  rw [ttStep_fold_missing_origin ev hT ev.phase_arrivals hwf hex ev.ttimes]
  rfl

/-- Witness for the amended C4 at a concrete originless event with one
located arrival. -/
theorem calc_ttimes_missing_origin_fails_witness :
    Event.calc_ttimes
        { phase_arrivals := [[("dist", PyVal.num 5), ("arrtime", PyVal.dt 3)]] } =
      Except.error PyErr.typeError :=
  calc_ttimes_missing_origin_fails _ rfl
    (by intro arr harr
        fin_cases harr
        exact ⟨⟨_, rfl⟩, ⟨_, rfl⟩⟩)
    ⟨[("dist", PyVal.num 5), ("arrtime", PyVal.dt 3)], by simp,
      by simp [dget?, List.find?, PyVal.truthy]⟩

/-- Counterexample for C4 as stated: with no origin time and a single
arrival whose distance is present but `0.0` (non-absent), `calc_ttimes`
does not fail — the falsy distance is skipped and an empty list is
returned. -/
theorem calc_ttimes_no_origin_zero_distance_returns :
    Event.calc_ttimes
        { phase_arrivals := [[("dist", PyVal.num 0), ("arrtime", PyVal.dt 5)]] } =
      Except.ok ([],
        { phase_arrivals := [[("dist", PyVal.num 0), ("arrtime", PyVal.dt 5)]] }) := by
  simp [Event.calc_ttimes, List.foldlM, ttStep, dgetE, dget?, List.find?,
    PyVal.truthy, Bind.bind, Except.bind, pure, Except.pure]

/-- Well-formedness of a parsed amplitude record as far as `_kim` reads
it: a string station code and a numeric amplitude. -/
def wfAmp (amp : PyDict) : Prop :=
  (∃ s, dget? amp "sta" = Option.some (PyVal.str s)) ∧
  (∃ a, dget? amp "amp" = Option.some (PyVal.num a))

/-- Folding `kimStep` over well-formed amplitude records raises
`KeyError` at the first record whose station is absent from the
coordinate mapping. -/
lemma kimStep_fold_missing (sqrt log10 : ℚ → ℚ) (ev : Event)
    (hco : ∀ p ∈ ev.sta_coords, ∃ q1 q2, p.2 = (PyVal.num q1, PyVal.num q2))
    (hlat : ∃ q, ev.getattr "latitude" = PyVal.num q)
    (hlon : ∃ q, ev.getattr "longitude" = PyVal.num q) :
    ∀ (amps : List PyDict), (∀ amp ∈ amps, wfAmp amp) →
      (∃ amp ∈ amps, ∃ s, dget? amp "sta" = Option.some (PyVal.str s) ∧
        scLookup ev.sta_coords s = Option.none) →
      ∀ sm, ∃ s, List.foldlM (kimStep sqrt log10 ev) sm amps =
        Except.error (PyErr.keyError s) ∧
        scLookup ev.sta_coords s = Option.none := by
  obtain ⟨ql, hql⟩ := hlat
  obtain ⟨qo, hqo⟩ := hlon
  intro amps
  induction amps with
  | nil => intro _ hex; simp at hex
  | cons a as ih =>
    intro hwf hex sm
    obtain ⟨⟨s0, hs0⟩, ⟨a0, ha0⟩⟩ := hwf a (by simp)
    cases hsc : scLookup ev.sta_coords s0 with
    | none =>
      refine ⟨s0, ?_, hsc⟩
      have hstep : kimStep sqrt log10 ev sm a =
          Except.error (PyErr.keyError s0) := by
        simp [kimStep, dgetE, hs0, hsc, Bind.bind, Except.bind]
      simp [List.foldlM_cons, hstep, Bind.bind, Except.bind]
    | some c =>
      obtain ⟨p, hfind, hp2⟩ : ∃ p, List.find? (fun p => p.1 == s0)
          ev.sta_coords = Option.some p ∧ p.2 = c := by
        unfold scLookup at hsc
        cases hf : List.find? (fun p => p.1 == s0) ev.sta_coords with
        | none => rw [hf] at hsc; simp at hsc
        | some p => rw [hf] at hsc; simp at hsc; exact ⟨p, rfl, hsc⟩
      obtain ⟨q1, q2, hc⟩ := hco p (List.mem_of_find?_eq_some hfind)
      have hstep : kimStep sqrt log10 ev sm a =
          Except.ok (smAppend sm s0
            (log10 (a0 / 1000) + (155 / 100) *
              log10 (calc_dist sqrt (q1, q2) (ql, qo)) - 22 / 100)) := by
        rw [hp2] at hc
        simp [kimStep, dgetE, hs0, ha0, hsc, hc, pyNumOf, hql, hqo,
          Bind.bind, Except.bind]
      simp only [List.foldlM_cons, hstep, Bind.bind, Except.bind]
      apply ih (fun amp h => hwf amp (by simp [h]))
      rcases hex with ⟨amp, hamp, s, hss, hmiss⟩
      rcases List.mem_cons.mp hamp with rfl | hmem
      · rw [hs0] at hss
        have : s = s0 := by
          have := (Option.some.inj hss)
          exact (PyVal.str.inj this).symm
        rw [this] at hmiss
        rw [hmiss] at hsc
        cases hsc
      · exact ⟨amp, hmem, s, hss, hmiss⟩

/-- C7: for every event with a non-empty station-coordinate mapping and
well-formed amplitude records, if at least one amplitude record's station
code is absent from the mapping then the Kim-formula magnitude estimation
fails with `KeyError` on a missing station (the `MissingStationCoordinates`
condition) — it never substitutes a default coordinate and returns a
magnitude.  The floating-point `np.sqrt`/`np.log10` are universally
quantified, so the failure is independent of them. -/
theorem kim_missing_station_fails (sqrt log10 : ℚ → ℚ) (ev : Event)
    (sc : Option (List (String × PyVal × PyVal))) (cmp nm : String)
    (mind maxd : ℚ)
    (hne : ev.sta_coords ≠ [])
    (hco : ∀ p ∈ ev.sta_coords, ∃ q1 q2, p.2 = (PyVal.num q1, PyVal.num q2))
    (hlat : ∃ q, ev.getattr "latitude" = PyVal.num q)
    (hlon : ∃ q, ev.getattr "longitude" = PyVal.num q)
    (hwf : ∀ amp ∈ ev.amplitudes, wfAmp amp)
    (hmiss : ∃ amp ∈ ev.amplitudes, ∃ s,
      dget? amp "sta" = Option.some (PyVal.str s) ∧
      scLookup ev.sta_coords s = Option.none) :
    ∃ s, Event.kim sqrt log10 ev sc cmp nm mind maxd =
      Except.error (PyErr.keyError s) ∧
      scLookup ev.sta_coords s = Option.none := by
  have hie : ev.sta_coords.isEmpty = false := by
    simpa [List.isEmpty_iff] using hne
  obtain ⟨s, hfold, hm⟩ := kimStep_fold_missing sqrt log10 ev hco hlat hlon
    ev.amplitudes hwf hmiss []
  refine ⟨s, ?_, hm⟩
  unfold Event.kim
  simp [hie, hfold, Bind.bind, Except.bind]

/-- Witness for C7: a concrete event with one amplitude at station "AAA"
and a coordinate mapping holding only "BBB". -/
theorem kim_missing_station_fails_witness :
    ∃ s, Event.kim id id
        { attrs := [("latitude", PyVal.num 0), ("longitude", PyVal.num 0)],
          amplitudes := [[("sta", PyVal.str "AAA"), ("amp", PyVal.num 100)]],
          sta_coords := [("BBB", (PyVal.num 1, PyVal.num 2))] }
        Option.none "max" "mean" 100 800 =
      Except.error (PyErr.keyError s) ∧
      scLookup [("BBB", (PyVal.num 1, PyVal.num 2))] s = Option.none := by
  exact kim_missing_station_fails id id _ Option.none "max" "mean" 100 800
    (by decide)
    (by intro p hp; fin_cases hp; exact ⟨1, 2, rfl⟩)
    ⟨0, rfl⟩ ⟨0, rfl⟩
    (by intro amp hamp; fin_cases hamp; exact ⟨⟨"AAA", rfl⟩, ⟨100, rfl⟩⟩)
    ⟨[("sta", PyVal.str "AAA"), ("amp", PyVal.num 100)], by simp,
      "AAA", rfl, rfl⟩

/-- Updating one key of a dict leaves lookups of other keys unchanged. -/
lemma dget?_dset_ne (d : PyDict) (k k' : String) (v : PyVal) (h : k' ≠ k) :
    dget? (dset d k v) k' = dget? d k' := by
  induction d with
  | nil =>
    have h1 : (k == k') = false := by
      simp only [beq_eq_false_iff_ne, ne_eq]
      exact fun hc => h hc.symm
    simp [dset, dget?, List.find?, h1]
  | cons p t ih =>
    by_cases hp : p.1 = k
    · simp [dset, hp, dget?, List.find?]
      have h1 : (k == k') = false := by
        simp [beq_eq_false_iff_ne]
        exact fun hc => h hc.symm
      have h2 : (p.1 == k') = false := by
        rw [hp]
        exact h1
      simp [h1, h2]
    · have hpk : (p.1 == k) = false := by simp [beq_eq_false_iff_ne, hp]
      simp only [dset, hpk]
      by_cases hpk' : p.1 = k'
      · simp [dget?, List.find?, hpk']
      · have h3 : (p.1 == k') = false := by simp [beq_eq_false_iff_ne, hpk']
        simp only [dget?, List.find?, h3]
        exact ih

/-- A successful coercion step on key `k1` cannot create a different
key `k`. -/
lemma coerceStep_none (coe : String → Except PyErr ℚ) (d d2 : PyDict)
    (k1 k : String) (hne : k ≠ k1) (hs : coerceStep coe d k1 = Except.ok d2)
    (hd : dget? d k = Option.none) : dget? d2 k = Option.none := by
  unfold coerceStep at hs
  cases hv : dgetE d k1 with
  | error e => rw [hv] at hs; simp [Bind.bind, Except.bind] at hs
  | ok v =>
    rw [hv] at hs
    simp only [Bind.bind, Except.bind] at hs
    match v, hs with
    | PyVal.str s, hs =>
      by_cases hse : s = ""
      · simp [hse] at hs
        rw [← hs]
        exact hd
      · simp [hse] at hs
        cases hq : coe s with
        | error e => rw [hq] at hs; simp [Bind.bind, Except.bind] at hs
        | ok q =>
          rw [hq] at hs
          simp [Bind.bind, Except.bind] at hs
          rw [← hs, dget?_dset_ne d k1 k _ hne]
          exact hd
    | PyVal.none, hs => simp at hs; rw [← hs]; exact hd
    | PyVal.num q, hs => simp at hs; rw [← hs]; exact hd
    | PyVal.bool b, hs => simp at hs; rw [← hs]; exact hd
    | PyVal.dt t, hs => simp at hs; rw [← hs]; exact hd

/-- A successful coercion pass never creates keys it was not given. -/
lemma dget?_coerceKeys_none (coe : String → Except PyErr ℚ) :
    ∀ (keys : List String) (d d2 : PyDict) (k : String), k ∉ keys →
      coerceKeys coe keys d = Except.ok d2 → dget? d k = Option.none →
      dget? d2 k = Option.none := by
  intro keys
  induction keys with
  | nil =>
    intro d d2 k _ h hd
    simp [coerceKeys, List.foldlM, pure, Except.pure] at h
    rw [← h]
    exact hd
  | cons k1 ks ih =>
    intro d d2 k hk h hd
    rw [coerceKeys, List.foldlM_cons] at h
    cases hs : coerceStep coe d k1 with
    | error e => rw [hs] at h; simp [Bind.bind, Except.bind] at h
    | ok dm =>
      rw [hs] at h
      simp only [Bind.bind, Except.bind] at h
      refine ih dm d2 k (fun hc => hk (by simp [hc])) h ?_
      exact coerceStep_none coe d dm k1 k (fun hc => hk (by simp [hc])) hs hd

/-- The coercion pass raises `KeyError` immediately when its first key is
absent from the dict (`if arr[key]` indexes before testing). -/
lemma coerceKeys_head_missing (coe : String → Except PyErr ℚ) (k : String)
    (rest : List String) (d : PyDict) (h : dget? d k = Option.none) :
    coerceKeys coe (k :: rest) d = Except.error (PyErr.keyError k) := by
  simp [coerceKeys, List.foldlM_cons, coerceStep, dgetE, h, Bind.bind,
    Except.bind]

/-- C2: format-2 (nordic2) phase-line decoding never succeeds.  The
decoder's `float_keys` list names `"per"` — a key the nordic2 dict does not
contain — so the coercion loop raises `KeyError('per')` on every line
(after possibly failing earlier on a malformed column); consequently no
nordic2 record is ever classified as amplitude or arrival.  The second
conjunct evaluates the decoder on the repository's own nordic2 amplitude
test line, whose non-empty amplitude the claim says must yield an
`AmplitudeRecord`. -/
theorem nordic2_decoder_always_raises :
    (∀ (line : String) (origin : Option ℚ), ∃ e,
        parse_type_phase_nordic2 line origin = Except.error e) ∧
    parse_type_phase_nordic2
        " HYA  HHZ NS00  IAML      0515 46.950  344.9  0.40 TES pv      -0.07    299 163 "
        Option.none = Except.error (PyErr.keyError "per") := by
  constructor
  · intro line origin
    unfold parse_type_phase_nordic2
    cases hq : pyAt line 15 with
    | error e => exact ⟨e, by simp [hq, Bind.bind, Except.bind]⟩
    | ok qual =>
      cases hw : pyAt line 24 with
      | error e => exact ⟨e, by simp [hq, hw, Bind.bind, Except.bind]⟩
      | ok wgtind =>
        cases hc : coerceKeys pyIntQ ["arr_h", "arr_m"]
            (stripVals (nordic2RawDict line qual wgtind)) with
        | error e => exact ⟨e, by simp [hq, hw, hc, Bind.bind, Except.bind]⟩
        | ok arr2 =>
          have hper : dget? arr2 "per" = Option.none :=
            dget?_coerceKeys_none pyIntQ ["arr_h", "arr_m"] _ arr2 "per"
              (by decide) hc rfl
          exact ⟨PyErr.keyError "per",
            by simp [hq, hw, hc, Bind.bind, Except.bind,
              coerceKeys_head_missing pyFloatQ "per" _ arr2 hper]⟩
  · rfl

/-- C9 (amended): every non-blank line that does not end in "EC3" **nor in
"MACRO3"** and is shorter than 80 characters makes the per-line step of
`read_sfile` fail with `IndexError`: the classifier reads `line[79]`
unguarded, and the error propagates out of the line loop. -/
theorem classify_short_line_index_error (format : ℕ) (ra : Bool) (ev : Event)
    (prev : Option String) (line : String)
    (hnb : pyStrip line ≠ "") (hec : pyTakeRight line 3 ≠ "EC3")
    (hmac : pyTakeRight line 6 ≠ "MACRO3") (hlen : line.length < 80) :
    processLine format ra (ev, prev) line = Except.error PyErr.indexError := by
  have hb : (pyStrip line == "") = false := by
    simp [beq_eq_false_iff_ne, hnb]
  have h1 : (pyTakeRight line 3 == "EC3") = false := by
    simp [beq_eq_false_iff_ne, hec]
  have h2 : (pyTakeRight line 6 == "MACRO3") = false := by
    simp [beq_eq_false_iff_ne, hmac]
  have h79 : line.data.drop 79 = [] := by
    apply List.drop_eq_nil_of_le
    have hl : line.data.length = line.length := rfl
    omega
  simp [processLine, hb, classify, h1, h2, pyAt, h79, Bind.bind, Except.bind]

/-- Witness for the amended C9 at the one-character line `"X"`. -/
theorem classify_short_line_index_error_witness :
    processLine 1 true (({} : Event), Option.none) "X" =
      Except.error PyErr.indexError :=
  classify_short_line_index_error 1 true {} Option.none "X" (by decide)
    (by decide) (by decide) (by decide)

/-- Counterexample for C9 as stated: the final line `"MACRO3"` is
non-blank, shorter than 80 characters and does not end in "EC3", yet
`read_sfile` does not fail with an index error — the broken MACRO3 arm
skips the `line[79]` read, the stale tag `'3'` from the previous comment
line is reused, and the parse succeeds. -/
theorem read_short_mac3_line_no_index_error :
    read_sfile "p" 1 true
        [String.mk (' ' :: 'c' :: List.replicate 77 ' ') ++ "3", "MACRO3"] =
      Except.ok
        { attrs := [("comment", PyVal.str "ACRO3")],
          sfile := PyVal.str "p" } := by
  rfl

/-- `update_from_dict` only touches scalar attributes, never the arrival
and amplitude lists. -/
lemma update_from_dict_lists (ev : Event) (d : PyDict) :
    (ev.update_from_dict d).phase_arrivals = ev.phase_arrivals ∧
      (ev.update_from_dict d).amplitudes = ev.amplitudes := ⟨rfl, rfl⟩

/-- A successful `updateWith` step preserves the arrival and amplitude
lists. -/
lemma updateWith_lists (ev ev' : Event) (r : Except PyErr PyDict)
    (h : updateWith ev r = Except.ok ev') :
    ev'.phase_arrivals = ev.phase_arrivals ∧
      ev'.amplitudes = ev.amplitudes := by
  cases r with
  | error e => simp [updateWith, Bind.bind, Except.bind] at h
  | ok d =>
    simp [updateWith, Bind.bind, Except.bind] at h
    rw [← h]
    exact ⟨rfl, rfl⟩

/-- With `read_arrivals = False` every dispatch arm preserves the arrival
and amplitude lists: the two phase-line arms are disabled by the flag, and
all other arms merge through `update_from_dict`. -/
lemma dispatchLine_false_lists (fmt : ℕ) (ev ev' : Event) (tl line : String)
    (h : dispatchLine fmt false ev tl line = Except.ok ev') :
    ev'.phase_arrivals = ev.phase_arrivals ∧
      ev'.amplitudes = ev.amplitudes := by
  unfold dispatchLine at h
  simp only [parse_type_2, Bool.and_false, Bool.false_and, Bool.false_eq_true,
    if_false] at h
  revert h
  generalize parse_type_1 line = r1
  generalize parse_type_3 line = r3
  generalize parse_type_6 line = r6
  generalize parse_type_E line = rE
  generalize parse_type_F line = rF
  generalize parse_type_H line = rH
  generalize parse_type_I line = rI
  generalize parse_type_M line = rM
  generalize parse_type_P line = rP
  generalize parse_type_S line = rS
  generalize parse_type_EC3 line = rEC
  generalize parse_type_mac3 line = rMC
  intro h
  by_cases c0 : (tl == "1") = true
  · rw [if_pos c0] at h
    exact updateWith_lists _ _ _ h
  rw [if_neg c0] at h
  by_cases c1 : (tl == "2") = true
  · rw [if_pos c1] at h
    exact absurd h (by simp)
  rw [if_neg c1] at h
  by_cases c2 : (tl == "3") = true
  · rw [if_pos c2] at h
    exact updateWith_lists _ _ _ h
  rw [if_neg c2] at h
  by_cases c3 : (tl == "6") = true
  · rw [if_pos c3] at h
    exact updateWith_lists _ _ _ h
  rw [if_neg c3] at h
  by_cases c4 : (tl == "E") = true
  · rw [if_pos c4] at h
    exact updateWith_lists _ _ _ h
  rw [if_neg c4] at h
  by_cases c5 : (tl == "F") = true
  · rw [if_pos c5] at h
    exact updateWith_lists _ _ _ h
  rw [if_neg c5] at h
  by_cases c6 : (tl == "H") = true
  · rw [if_pos c6] at h
    exact updateWith_lists _ _ _ h
  rw [if_neg c6] at h
  by_cases c7 : (tl == "I") = true
  · rw [if_pos c7] at h
    exact updateWith_lists _ _ _ h
  rw [if_neg c7] at h
  by_cases c8 : (tl == "M") = true
  · rw [if_pos c8] at h
    exact updateWith_lists _ _ _ h
  rw [if_neg c8] at h
  by_cases c9 : (tl == "P") = true
  · rw [if_pos c9] at h
    exact updateWith_lists _ _ _ h
  rw [if_neg c9] at h
  by_cases c10 : (tl == "S") = true
  · rw [if_pos c10] at h
    exact updateWith_lists _ _ _ h
  rw [if_neg c10] at h
  by_cases c11 : (tl == "EC3") = true
  · rw [if_pos c11] at h
    exact updateWith_lists _ _ _ h
  rw [if_neg c11] at h
  by_cases c12 : (tl == "MACRO3") = true
  · rw [if_pos c12] at h
    exact updateWith_lists _ _ _ h
  rw [if_neg c12] at h
  cases h
  exact ⟨rfl, rfl⟩

/-- With `read_arrivals = False` one line-loop step preserves the arrival
and amplitude lists. -/
lemma processLine_false_lists (fmt : ℕ) (st st' : Event × Option String)
    (line : String) (h : processLine fmt false st line = Except.ok st') :
    st'.1.phase_arrivals = st.1.phase_arrivals ∧
      st'.1.amplitudes = st.1.amplitudes := by
  unfold processLine at h
  by_cases hsb : (pyStrip line == "") = true
  · rw [if_pos hsb] at h
    cases h
    exact ⟨rfl, rfl⟩
  · rw [if_neg hsb] at h
    cases hc : classify st.2 line with
    | error e => rw [hc] at h; simp [Bind.bind, Except.bind] at h
    | ok tl =>
      rw [hc] at h
      simp only [Bind.bind, Except.bind] at h
      cases hd : dispatchLine fmt false st.1 tl line with
      | error e => rw [hd] at h; simp at h
      | ok ev2 =>
        rw [hd] at h
        simp at h
        rw [← h]
        exact dispatchLine_false_lists fmt st.1 ev2 tl line hd

/-- With `read_arrivals = False` the whole line loop preserves the arrival
and amplitude lists. -/
lemma foldl_processLine_false_lists (fmt : ℕ) :
    ∀ (lines : List String) (st res : Event × Option String),
      List.foldlM (processLine fmt false) st lines = Except.ok res →
      res.1.phase_arrivals = st.1.phase_arrivals ∧
        res.1.amplitudes = st.1.amplitudes := by
  intro lines
  induction lines with
  | nil =>
    intro st res h
    simp [List.foldlM, pure, Except.pure] at h
    rw [← h]
    exact ⟨rfl, rfl⟩
  | cons l ls ih =>
    intro st res h
    rw [List.foldlM_cons] at h
    cases hp : processLine fmt false st l with
    | error e => rw [hp] at h; simp [Bind.bind, Except.bind] at h
    | ok st1 =>
      rw [hp] at h
      simp only [Bind.bind, Except.bind] at h
      obtain ⟨h1, h2⟩ := processLine_false_lists fmt st st1 l hp
      obtain ⟨h3, h4⟩ := ih st1 res h
      exact ⟨h3.trans h1, h4.trans h2⟩

/-- For a line whose tag is not the blank phase tag, dispatch does not
depend on the `read_arrivals` flag. -/
lemma dispatchLine_ra_eq (fmt : ℕ) (ev : Event) (tl line : String)
    (h : tl ≠ " ") :
    dispatchLine fmt false ev tl line = dispatchLine fmt true ev tl line := by
  have hb : (tl == " ") = false := by simp [beq_eq_false_iff_ne, h]
  unfold dispatchLine
  simp only [hb, Bool.false_and, Bool.false_eq_true, if_false]

/-- C10: calling `read_sfile` with `read_arrivals = False` always returns
an event with empty `phase_arrivals` and `amplitudes`, whatever the file's
content; and the processing of every line whose tag is not the blank
phase/amplitude tag is identical to a `read_arrivals = True` run, so all
other record types are still decoded and merged. -/
theorem read_arrivals_false_no_arrivals :
    (∀ (format : ℕ) (path : String) (lines : List String) (ev : Event),
        read_sfile path format false lines = Except.ok ev →
        ev.phase_arrivals = [] ∧ ev.amplitudes = []) ∧
    (∀ (format : ℕ) (st : Event × Option String) (line : String),
        (∀ t, classify st.2 line = Except.ok t → t ≠ " ") →
        processLine format false st line = processLine format true st line) := by
  constructor
  · intro fmt path lines ev h
    unfold read_sfile at h
    by_cases hfm : fmt ≠ 1 ∧ fmt ≠ 2
    · rw [if_pos hfm] at h
      exact absurd h (by simp)
    · rw [if_neg hfm] at h
      cases hf : List.foldlM (processLine fmt false)
          (({} : Event), (Option.none : Option String)) lines with
      | error e => rw [hf] at h; simp [Bind.bind, Except.bind] at h
      | ok st =>
        rw [hf] at h
        simp only [Bind.bind, Except.bind] at h
        obtain ⟨h1, h2⟩ := foldl_processLine_false_lists fmt lines _ st hf
        cases h
        exact ⟨h1, h2⟩
  · intro fmt st line hcl
    unfold processLine
    by_cases hsb : (pyStrip line == "") = true
    · rw [if_pos hsb, if_pos hsb]
    · rw [if_neg hsb, if_neg hsb]
      cases hc : classify st.2 line with
      | error e => simp [Bind.bind, Except.bind]
      | ok tl =>
        simp only [Bind.bind, Except.bind]
        rw [dispatchLine_ra_eq fmt st.1 tl line (hcl tl hc)]

/-- Witness for C10 on a file containing one comment line: the parse
succeeds with empty arrival lists, and processing that line ignores the
`read_arrivals` flag. -/
theorem read_arrivals_false_no_arrivals_witness :
    (∃ ev, read_sfile "p" 1 false
        [String.mk (' ' :: 'd' :: List.replicate 77 ' ') ++ "3"] =
        Except.ok ev ∧ ev.phase_arrivals = [] ∧ ev.amplitudes = []) ∧
    processLine 1 false (({} : Event), Option.none)
        (String.mk (' ' :: 'd' :: List.replicate 77 ' ') ++ "3") =
      processLine 1 true (({} : Event), Option.none)
        (String.mk (' ' :: 'd' :: List.replicate 77 ' ') ++ "3") := by
  constructor
  · refine ⟨_, rfl, read_arrivals_false_no_arrivals.1 1 "p"
      [String.mk (' ' :: 'd' :: List.replicate 77 ' ') ++ "3"] _ rfl⟩
  · apply read_arrivals_false_no_arrivals.2
    intro t ht
    have h3 : classify
        ((({} : Event), (Option.none : Option String))).2
        (String.mk (' ' :: 'd' :: List.replicate 77 ' ') ++ "3") =
        Except.ok "3" := rfl
    rw [h3] at ht
    cases ht
    decide

end SeisanUtil
